import Mathlib

/-!
# Verification of the Pstryk Home Assistant integration core

Shallow embedding of the session/data-freshness engine of the Pstryk
custom component (files `api.py`, `ws.py`, `__init__.py`, `sensor.py`)
and proofs about the spec's claims: the snapshot merge, the websocket
supervising loop's backoff, first-frame discarding, token handling and
price-frame processing.

Python dictionaries keyed by strings are modelled as association lists
(`Snap`), with `dictInsert`/`dictUpdate` mirroring `d[k] = v` and
`d.update(u)` (replace in place at an existing key, append new keys),
and `dictGet` mirroring `d.get(k)`.  Python dicts have unique keys, so
the in-place replacement hits the single occurrence of the key.
-/

namespace Pstryk

/-- JSON-like values that appear in the snapshot dictionary `_last_data`:
`None`, numbers, strings, and the nested `hourly_prices` dict. -/
inductive Val where
  | null : Val
  | num (q : ℚ) : Val
  | str (s : String) : Val
  | table (fields : List (String × ℚ)) : Val
  deriving DecidableEq, Repr

/-- A Python dict with string keys, as an insertion-ordered association list. -/
abbrev Snap := List (String × Val)

/-- `d[k] = v`: replace the value at an existing key in place, else append. -/
def dictInsert : Snap → String → Val → Snap
  | [], k, v => [(k, v)]
  | p :: m, k, v => if p.1 = k then (k, v) :: m else p :: dictInsert m k v

/-- `m.update(u)`: assign every pair of `u` into `m`, in order. -/
def dictUpdate (m u : Snap) : Snap :=
  u.foldl (fun acc p => dictInsert acc p.1 p.2) m

/-- `m.get(k)`: the value at the key `k`, if present. -/
def dictGet : Snap → String → Option Val
  | [], _ => none
  | p :: m, k => if p.1 = k then some p.2 else dictGet m k

/-- The key list of the dict. -/
def dictKeys (m : Snap) : List String := m.map Prod.fst


/-! ## Push frames and the websocket message handler (`ws.py`) -/

/-- One of the nested `day_to_date` / `week_to_date` / `month_to_date` JSON
objects in a push frame; `none` in a field means the key is absent. -/
structure UsageGroup where
  fae_usage : Option ℚ
  fae_cost : Option ℚ
  deriving DecidableEq, Repr

/-- A decoded push frame; `none` in a field means the group is absent. -/
structure PushFrame where
  day_to_date : Option UsageGroup
  week_to_date : Option UsageGroup
  month_to_date : Option UsageGroup
  deriving DecidableEq, Repr

/-- `None`-or-number, as stored into the snapshot dict. -/
def optNum : Option ℚ → Val
  | none => Val.null
  | some q => Val.num q

/-- `data.get(<group>, {}).get("fae_usage")`: null when the group or the
field is absent. -/
def groupUsage : Option UsageGroup → Val
  | none => Val.null
  | some g => optNum g.fae_usage

/-- `data.get(<group>, {}).get("fae_cost")`: null when the group or the
field is absent. -/
def groupCost : Option UsageGroup → Val
  | none => Val.null
  | some g => optNum g.fae_cost

/-- The `usage_data` dict built by `_process_ws_message`
(`ws.py` lines 158–165, identically `api.py` lines 150–157). -/
def usageData (f : PushFrame) : Snap :=
  [("today_usage", groupUsage f.day_to_date),
   ("today_cost", groupCost f.day_to_date),
   ("week_usage", groupUsage f.week_to_date),
   ("week_cost", groupCost f.week_to_date),
   ("month_usage", groupUsage f.month_to_date),
   ("month_cost", groupCost f.month_to_date)]

/-- `ws.py` `_process_ws_message` lines 167–173: read the API client's
current snapshot (`merged_data = dict(self._api_client._last_data)`),
shallow-update it with the new usage data, and hand the result to the
callback. -/
def processWsMessage (apiData : Snap) (f : PushFrame) : Snap :=
  dictUpdate apiData (usageData f)

/-! ## Price frames and `get_prices` (`api.py` lines 236–268) -/

/-- One element of `response["frames"]`.  `start` is the raw ISO string
under the `"start"` key (`none` when absent); `startHour` is the `.hour`
field of `datetime.fromisoformat(start)`; `price` is the value under
`"price_gross"` (`none` when absent). -/
structure RawFrame where
  start : Option String
  startHour : Nat
  price : Option ℚ
  deriving DecidableEq, Repr

/-- Accumulator of the frame loop in `get_prices`: the `hourly_prices`
dict and the `current_price` / `next_hour_price` variables. -/
structure PriceAcc where
  hourly : List (String × ℚ)
  current : Option ℚ
  nextHour : Option ℚ
  deriving DecidableEq, Repr

/-- `hourly_prices[start_time] = price` on a string-to-number dict. -/
def insertQ : List (String × ℚ) → String → ℚ → List (String × ℚ)
  | [], k, v => [(k, v)]
  | p :: m, k, v => if p.1 = k then (k, v) :: m else p :: insertQ m k v

/-- One iteration of the loop `for frame in response.get("frames", [])`
(`api.py` lines 245–256).  The guard `if start_time and price:` is Python
truthiness: it fails when either key is absent, when the start string is
empty, or when the gross price equals 0. -/
def frameStep (nowHour : Nat) (st : PriceAcc) (f : RawFrame) : PriceAcc :=
  match f.start, f.price with
  | some s, some p =>
      if s ≠ "" ∧ p ≠ 0 then
        { hourly := insertQ st.hourly s p
          current := if f.startHour = nowHour then some p else st.current
          nextHour := if f.startHour = (nowHour + 1) % 24 then some p else st.nextHour }
      else st
  | _, _ => st

/-- The whole frame loop of `get_prices`, starting from an empty dict and
`current_price = next_hour_price = None`. -/
def processFrames (nowHour : Nat) (frames : List RawFrame) : PriceAcc :=
  frames.foldl (frameStep nowHour) ⟨[], none, none⟩

/-- The `price_data` dict built by `get_prices` (`api.py` lines 258–264);
`avg` is `response.get("price_gross_avg")` and `nowIso` the
`datetime.now().isoformat()` string. -/
def priceData (nowHour : Nat) (avg : Option ℚ) (nowIso : String)
    (frames : List RawFrame) : Snap :=
  let acc := processFrames nowHour frames
  [("current_price", optNum acc.current),
   ("next_hour_price", optNum acc.nextHour),
   ("today_price_avg", optNum avg),
   ("hourly_prices", Val.table acc.hourly),
   ("prices_updated", Val.str nowIso)]

/-- `api.py` line 266: `self._last_data.update(price_data)` — the stored
snapshot after a successful price fetch. -/
def getPricesMerge (last : Snap) (nowHour : Nat) (avg : Option ℚ)
    (nowIso : String) (frames : List RawFrame) : Snap :=
  dictUpdate last (priceData nowHour avg nowIso frames)

/-! ## Token manager (`api.py` lines 38–56, 211–234) -/

/-- The credential fields of `PstrykApiClient`: `_access_token`,
`_refresh_token` and `_token_expires` (an absolute time, here in
seconds). -/
structure TokenState where
  access : Option String
  refresh : Option String
  expires : Option Nat
  deriving DecidableEq, Repr

/-- Python truthiness of an optional string: `None` and `""` are falsy. -/
def truthyStr : Option String → Bool
  | none => false
  | some s => s ≠ ""

/-- The JSON body field `"refresh"` posted by `refresh_token`
(`api.py` line 224): the code sends `self._access_token`. -/
def refreshRequestBody (st : TokenState) : Option String := st.access

/-- Outcome of one HTTP exchange against the token endpoints. -/
inductive HttpOutcome where
  | ok200 (newAccess : String) : HttpOutcome
  | non200 (status : Nat) : HttpOutcome
  | netError : HttpOutcome
  deriving DecidableEq, Repr

/-- `refresh_token` (`api.py` lines 218–234): on a 200 response, store the
new access token and reset the expiry to now + 10 minutes and return
`True`; on a non-200 response or a caught exception, return `False`
leaving the state unchanged. -/
def refreshTokenStep (st : TokenState) (now : Nat) (o : HttpOutcome) :
    TokenState × Bool :=
  match o with
  | .ok200 a => ({ st with access := some a, expires := some (now + 600) }, true)
  | .non200 _ => (st, false)
  | .netError => (st, false)

/-- The operations `_ensure_token_valid` can perform. -/
inductive TokenOp where
  | refreshOp : TokenOp
  | authenticateOp : TokenOp
  deriving DecidableEq, Repr

/-- The condition guarding `_ensure_token_valid` (`api.py` line 213):
`not self._access_token or (self._token_expires and datetime.now() >= self._token_expires)`. -/
def tokenStale (st : TokenState) (now : Nat) : Bool :=
  !truthyStr st.access ||
    (match st.expires with
     | some e => decide (e ≤ now)
     | none => false)

/-- The network operations performed by `_ensure_token_valid`
(`api.py` lines 211–216): when the token is stale, short-circuit on
`self._refresh_token and await self.refresh_token()` and fall back to
`authenticate()`; otherwise do nothing.  `refreshSucceeds` is the result
the refresh call would report. -/
def ensureTokenValidOps (st : TokenState) (now : Nat)
    (refreshSucceeds : Bool) : List TokenOp :=
  if tokenStale st now then
    if truthyStr st.refresh then
      if refreshSucceeds then [TokenOp.refreshOp]
      else [TokenOp.refreshOp, TokenOp.authenticateOp]
    else [TokenOp.authenticateOp]
  else []

/-! ## `authenticate` and entry setup (`api.py` lines 38–56, `__init__.py` lines 31–56) -/

/-- Exceptions of the Python transport layer. -/
inductive PyExn where
  | timeoutOrNetwork : PyExn
  deriving DecidableEq, Repr

/-- Outcome of the login POST in `authenticate`: a 200 with the token pair
(and `meterOk` the result `_fetch_meter_id` would then report), a non-200
status, or a raised network/timeout error. -/
inductive AuthHttp where
  | ok200 (access refreshTok : String) (meterOk : Bool) : AuthHttp
  | non200 (status : Nat) : AuthHttp
  | netError : AuthHttp
  deriving DecidableEq, Repr

/-- The body of `authenticate` before its `except Exception` handler
(`api.py` lines 40–53): on 200 store both tokens, set expiry to
now + 10 minutes and return `_fetch_meter_id()`; on non-200 return
`False`; network/timeout failures raise. -/
def authenticateBody (st : TokenState) (now : Nat) (o : AuthHttp) :
    Except PyExn (TokenState × Bool) :=
  match o with
  | .ok200 a r meterOk =>
      Except.ok ({ access := some a, refresh := some r, expires := some (now + 600) }, meterOk)
  | .non200 _ => Except.ok (st, false)
  | .netError => Except.error PyExn.timeoutOrNetwork

/-- `authenticate` (`api.py` lines 38–56): the whole body is wrapped in
`except Exception as err: ... return False`, so the call is total — it
reports failure through its boolean result and never raises. -/
def authenticate (st : TokenState) (now : Nat) (o : AuthHttp) :
    TokenState × Bool :=
  match authenticateBody st now o with
  | Except.ok r => r
  | Except.error _ => (st, false)

/-- The errors `async_setup_entry` can abort with. -/
inductive SetupError where
  | configEntryNotReady : SetupError
  deriving DecidableEq, Repr

/-- The `try`/`except` in `async_setup_entry` (`__init__.py` lines 42–46):
`ConfigEntryNotReady` is raised only when the awaited call raises. -/
def tryAuthPhase (r : Except PyExn (TokenState × Bool)) :
    Except SetupError Bool :=
  match r with
  | Except.ok _ => Except.ok true
  | Except.error _ => Except.error SetupError.configEntryNotReady

/-- The authentication phase of `async_setup_entry` (`__init__.py` lines
42–46): it awaits `api_client.authenticate()` — a total call, so the
guarded expression is always an `Except.ok` — and discards the returned
boolean; setup then proceeds and returns `True`. -/
def setupEntryAuth (st : TokenState) (now : Nat) (o : AuthHttp) :
    Except SetupError Bool :=
  tryAuthPhase (Except.ok (authenticate st now o))

/-! ## The websocket supervising loop (`ws.py` lines 54–86) -/

/-- The sleep at the bottom of `_websocket_loop` (`ws.py` line 86):
`min(backoff * 2 ** (retry_count - 1), max_backoff)` with `backoff = 5`
and `max_backoff = 300`; `retry_count - 1` is Python integer arithmetic,
so the exponent is `-1` right after a successful connection. -/
def backoffSleep (retryCount : Nat) : ℚ :=
  min ((5 : ℚ) * (2 : ℚ) ^ ((retryCount : ℤ) - 1)) 300

/-- One iteration of `_websocket_loop`: increment `retry_count`, attempt
the connection (`success` tells whether `_connect_websocket` returned
normally), reset `retry_count` to 0 on success, then sleep.  Returns the
new `retry_count` and the sleep duration in seconds. -/
def wsLoopStep (rc : Nat) (success : Bool) : Nat × ℚ :=
  let rc1 := rc + 1
  let rc2 := if success then 0 else rc1
  (rc2, backoffSleep rc2)

/-- The sleep durations of a run of `_websocket_loop` over a sequence of
connection outcomes (`true` = the connection attempt succeeded). -/
def wsLoopSleeps (rc : Nat) : List Bool → List ℚ
  | [] => []
  | s :: rest => (wsLoopStep rc s).2 :: wsLoopSleeps (wsLoopStep rc s).1 rest

/-! ## One websocket connection (`ws.py` lines 88–136) -/

/-- A websocket message as dispatched on `msg.type`: a binary frame
(with `some f` when its payload decodes to JSON, `none` when
`json.loads`/`decode` raises), a close frame, an error frame, or any
other type (which the loop silently skips). -/
inductive WsMsg where
  | binary (payload : Option PushFrame) : WsMsg
  | closed : WsMsg
  | error : WsMsg
  | other : WsMsg
  deriving DecidableEq, Repr

/-- A received event together with the result of the scheduled-reconnect
check `datetime.now() - self._last_reconnect >= self._reconnect_interval`
evaluated at that message (`ws.py` line 113). -/
structure WsEvent where
  due : Bool
  msg : WsMsg
  deriving DecidableEq, Repr

/-- The message loop of one connection (`ws.py` lines 111–136), from the
point where `_first_message_ignored` was set to `False` (line 108).
`ignored` is the current value of `_first_message_ignored`; `apiData` is
the API client's `_last_data` read by `_process_ws_message`.  Returns the
list of snapshots delivered to the callback on this connection. -/
def connRun (apiData : Snap) : Bool → List WsEvent → List Snap
  | _, [] => []
  | ignored, e :: rest =>
    if e.due then []
    else
      match e.msg with
      | WsMsg.binary p =>
          if !ignored then connRun apiData true rest
          else
            match p with
            | some f => processWsMessage apiData f :: connRun apiData true rest
            | none => connRun apiData true rest
      | WsMsg.closed => []
      | WsMsg.error => []
      | WsMsg.other => connRun apiData ignored rest

/-! ## Cheapest-hour computation (modelled from the spec) -/

/-- A price frame for the cheapest-hour computation: a timestamp (frames
are ordered by ascending timestamp) and a gross price. -/
structure PriceFrame where
  ts : Nat
  price : ℚ
  deriving DecidableEq, Repr

/-- First-occurrence arg-min of the gross price: fold keeping the current
best, replacing it only on a strictly smaller price, so ties keep the
earlier frame. -/
def argminFirst (f : PriceFrame) (fs : List PriceFrame) : PriceFrame :=
  fs.foldl (fun best g => if g.price < best.price then g else best) f

/-- Modelled from the spec: the current-period cheapest-hour timestamp is
not computed anywhere under `src/` — `sensor.py` only declares the
`today_cheapest_hour` sensor, which reads a key that `get_prices` never
writes.  Spec §3/§4.2: partition the ordered frames into the first 24
("current period"), and take the timestamp of the frame with the minimum
gross price, ties resolving to the earliest timestamp in ascending
order. -/
def cheapestCurrentHour (frames : List PriceFrame) : Option Nat :=
  match frames.take 24 with
  | [] => none
  | f :: fs => some (argminFirst f fs).ts

/-! ## Concrete inputs used by witnesses and counterexamples -/

/-- A stored snapshot holding a usage value and a price value. -/
def snapC2 : Snap := [("today_usage", Val.num 5), ("current_price", Val.num 7)]

/-- A push frame omitting all three usage groups. -/
def frameC2 : PushFrame := ⟨none, none, none⟩

/-- A credential state with distinct access and refresh tokens. -/
def stC4 : TokenState := ⟨some "a1", some "r1", some 0⟩

/-- A fresh credential state (no tokens yet). -/
def stEmpty : TokenState := ⟨none, none, none⟩

/-- 48 hourly frames with a unique cheapest price at timestamp 5. -/
def frames48 : List PriceFrame :=
  (List.range 48).map (fun k => ⟨k, if k = 5 then 1 else 2⟩)

/-- A credential state with an absent access token and a held refresh token. -/
def stC9 : TokenState := ⟨none, some "r1", none⟩

/-! ## Lemmas about the dict operations -/

lemma dictKeys_dictInsert (m : Snap) (k : String) (v : Val) (k' : String) :
    k' ∈ dictKeys (dictInsert m k v) ↔ k' ∈ dictKeys m ∨ k' = k := by
  induction m with
  | nil => simp [dictInsert, dictKeys]
  | cons p m ih =>
    by_cases hp : p.1 = k
    · simp [dictInsert, hp, dictKeys, List.mem_cons]
      tauto
    · simp only [dictInsert, if_neg hp, dictKeys, List.map_cons, List.mem_cons] at *
      tauto

lemma dictGet_dictInsert_self (m : Snap) (k : String) (v : Val) :
    dictGet (dictInsert m k v) k = some v := by
  induction m with
  | nil => simp [dictInsert, dictGet]
  | cons p m ih =>
    by_cases hp : p.1 = k
    · simp [dictInsert, hp, dictGet]
    · simp [dictInsert, hp, dictGet, ih]

lemma dictGet_dictInsert_ne (m : Snap) (k : String) (v : Val) (k' : String)
    (hne : k' ≠ k) : dictGet (dictInsert m k v) k' = dictGet m k' := by
  induction m with
  | nil =>
    simp only [dictInsert, dictGet]
    rw [if_neg (fun h : k = k' => hne h.symm)]
  | cons p m ih =>
    by_cases hp : p.1 = k
    · simp only [dictInsert, if_pos hp, dictGet]
      rw [if_neg (fun h : k = k' => hne h.symm),
        if_neg (fun h : p.1 = k' => hne (by rw [← h, hp]))]
    · simp only [dictInsert, if_neg hp, dictGet]
      by_cases hp' : p.1 = k'
      · rw [if_pos hp', if_pos hp']
      · rw [if_neg hp', if_neg hp', ih]

lemma dictKeys_dictUpdate (m u : Snap) (k : String) :
    k ∈ dictKeys (dictUpdate m u) ↔ k ∈ dictKeys m ∨ k ∈ dictKeys u := by
  induction u generalizing m with
  | nil => simp [dictUpdate, dictKeys]
  | cons p u ih =>
    simp only [dictUpdate, List.foldl_cons] at *
    rw [ih (dictInsert m p.1 p.2), dictKeys_dictInsert]
    simp only [dictKeys, List.map_cons, List.mem_cons]
    tauto

lemma dictGet_dictUpdate_of_not_mem (m u : Snap) (k : String)
    (hk : k ∉ dictKeys u) : dictGet (dictUpdate m u) k = dictGet m k := by
  induction u generalizing m with
  | nil => rfl
  | cons p u ih =>
    simp only [dictKeys, List.map_cons, List.mem_cons, not_or] at hk
    simp only [dictUpdate, List.foldl_cons]
    show dictGet (dictUpdate (dictInsert m p.1 p.2) u) k = dictGet m k
    rw [ih (dictInsert m p.1 p.2) (by simpa [dictKeys] using hk.2),
      dictGet_dictInsert_ne _ _ _ _ hk.1]

lemma dictGet_dictUpdate (m u : Snap) (k : String)
    (hu : (dictKeys u).Nodup) :
    dictGet (dictUpdate m u) k =
      if k ∈ dictKeys u then dictGet u k else dictGet m k := by
  induction u generalizing m with
  | nil => simp [dictUpdate, dictKeys]
  | cons p u ih =>
    simp only [dictKeys, List.map_cons, List.nodup_cons] at hu
    simp only [dictUpdate, List.foldl_cons]
    show dictGet (dictUpdate (dictInsert m p.1 p.2) u) k = _
    rw [ih (dictInsert m p.1 p.2) hu.2]
    by_cases hk : k ∈ dictKeys u
    · have hne : p.1 ≠ k := fun h => hu.1 (h ▸ hk)
      rw [if_pos hk, if_pos (by simpa [dictKeys, List.mem_cons] using Or.inr hk)]
      simp only [dictGet, if_neg hne]
    · by_cases hpk : p.1 = k
      · rw [if_neg hk, if_pos (by simp [dictKeys, hpk.symm]), hpk, dictGet_dictInsert_self]
        simp [dictGet, hpk]
      · rw [if_neg hk,
          if_neg (by simp only [dictKeys, List.map_cons, List.mem_cons]; tauto),
          dictGet_dictInsert_ne _ _ _ _ (fun h => hpk h.symm)]

/-! ## Helper lemmas about the price-frame loop and the arg-min fold -/

lemma frameStep_skip (nowHour : Nat) (st : PriceAcc) (f : RawFrame)
    (h : f.price = some 0 ∨ f.start = some "") : frameStep nowHour st f = st := by
  unfold frameStep
  rcases hst : f.start with _ | s
  · rfl
  · rcases hp : f.price with _ | p
    · rfl
    · rcases h with h | h
      · rw [hp] at h
        injection h with h
        subst h
        show (if s ≠ "" ∧ (0 : ℚ) ≠ 0 then _ else st) = st
        rw [if_neg (by simp)]
      · rw [hst] at h
        injection h with h
        subst h
        show (if "" ≠ "" ∧ p ≠ 0 then _ else st) = st
        rw [if_neg (by simp)]

lemma argminFirst_spec (fs : List PriceFrame) :
    ∀ f : PriceFrame, ∃ pre suf : List PriceFrame,
      f :: fs = pre ++ argminFirst f fs :: suf
      ∧ (∀ x ∈ f :: fs, (argminFirst f fs).price ≤ x.price)
      ∧ (∀ x ∈ pre, (argminFirst f fs).price < x.price) := by
  induction fs with
  | nil =>
    intro f
    exact ⟨[], [], rfl, by simp [argminFirst], by simp⟩
  | cons g gs ih =>
    intro f
    by_cases hg : g.price < f.price
    · have hfold : argminFirst f (g :: gs) = argminFirst g gs := by
        simp [argminFirst, hg]
      rcases ih g with ⟨pre', suf', heq, hmin, hstrict⟩
      refine ⟨f :: pre', suf', ?_, ?_, ?_⟩
      · rw [hfold, List.cons_append, ← heq]
      · intro x hx
        rw [hfold]
        rcases List.mem_cons.mp hx with h | hx'
        · rw [h]
          exact le_of_lt (lt_of_le_of_lt (hmin g (List.mem_cons_self g gs)) hg)
        · exact hmin x hx'
      · intro x hx
        rw [hfold]
        rcases List.mem_cons.mp hx with h | hx'
        · rw [h]
          exact lt_of_le_of_lt (hmin g (List.mem_cons_self g gs)) hg
        · exact hstrict x hx'
    · have hfold : argminFirst f (g :: gs) = argminFirst f gs := by
        simp [argminFirst, hg]
      rcases ih f with ⟨pre', suf', heq, hmin, hstrict⟩
      cases pre' with
      | nil =>
        simp only [List.nil_append] at heq
        have hb : argminFirst f gs = f := (List.cons.injEq _ _ _ _ ▸ heq).1.symm
        refine ⟨[], g :: gs, ?_, ?_, ?_⟩
        · simp [hfold, hb]
        · intro x hx
          rw [hfold, hb]
          rcases List.mem_cons.mp hx with h | hx'
          · rw [h]
          · rcases List.mem_cons.mp hx' with h | hx''
            · rw [h]
              exact le_of_not_lt hg
            · exact hb ▸ hmin x (List.mem_cons_of_mem f hx'')
        · intro x hx
          cases hx
      | cons q pre'' =>
        have hq : q = f ∧ gs = pre'' ++ argminFirst f gs :: suf' := by
          rw [List.cons_append] at heq
          exact ⟨((List.cons.injEq _ _ _ _ ▸ heq).1).symm, (List.cons.injEq _ _ _ _ ▸ heq).2⟩
        refine ⟨f :: g :: pre'', suf', ?_, ?_, ?_⟩
        · rw [hfold]
          simp only [List.cons_append]
          rw [← hq.2]
        · intro x hx
          rw [hfold]
          rcases List.mem_cons.mp hx with h | hx'
          · rw [h]
            exact hmin f (List.mem_cons_self f gs)
          · rcases List.mem_cons.mp hx' with h | hx''
            · rw [h]
              exact le_trans (hmin f (List.mem_cons_self f gs)) (le_of_not_lt hg)
            · exact hmin x (List.mem_cons_of_mem f hx'')
        · intro x hx
          rw [hfold]
          rcases List.mem_cons.mp hx with h | hx'
          · rw [h]
            exact hq.1 ▸ hstrict q (List.mem_cons_self q pre'')
          · rcases List.mem_cons.mp hx' with h | hx''
            · rw [h]
              exact lt_of_lt_of_le (hq.1 ▸ hstrict q (List.mem_cons_self q pre''))
                (le_of_not_lt hg)
            · exact hstrict x (List.mem_cons_of_mem q hx'')

/-! ## Helper lemmas about the backoff arithmetic -/

lemma backoffSleep_succ (n : Nat) :
    backoffSleep (n + 1) = min ((5 : ℚ) * 2 ^ n) 300 := by
  unfold backoffSleep
  have h : ((n + 1 : Nat) : ℤ) - 1 = (n : ℤ) := by push_cast; ring
  rw [h, zpow_natCast]

lemma backoffSleep_zero : backoffSleep 0 = 5 / 2 := by
  unfold backoffSleep
  norm_num

lemma wsLoopSleeps_replicate (m n : Nat) :
    wsLoopSleeps m (List.replicate n false) =
      (List.range n).map (fun k => min ((5 : ℚ) * 2 ^ (m + k)) 300) := by
  induction n generalizing m with
  | zero => simp [wsLoopSleeps]
  | succ n ih =>
    rw [List.replicate_succ]
    show backoffSleep (m + 1) :: wsLoopSleeps (m + 1) (List.replicate n false) = _
    rw [ih (m + 1), List.range_succ_eq_map, List.map_cons, List.map_map,
      backoffSleep_succ, Nat.add_zero]
    congr 1
    apply List.map_congr_left
    intro k _
    simp only [Function.comp]
    rw [show m + 1 + k = m + (k + 1) from by omega]

/-! ## Key lists of the code's update dicts -/

lemma dictKeys_usageData (f : PushFrame) :
    dictKeys (usageData f) =
      ["today_usage", "today_cost", "week_usage", "week_cost",
       "month_usage", "month_cost"] := rfl

lemma dictKeys_usageData_nodup (f : PushFrame) :
    (dictKeys (usageData f)).Nodup := by
  rw [dictKeys_usageData]
  decide

lemma dictKeys_priceData (nowHour : Nat) (avg : Option ℚ) (nowIso : String)
    (frames : List RawFrame) :
    dictKeys (priceData nowHour avg nowIso frames) =
      ["current_price", "next_hour_price", "today_price_avg",
       "hourly_prices", "prices_updated"] := rfl

lemma dictKeys_priceData_nodup (nowHour : Nat) (avg : Option ℚ)
    (nowIso : String) (frames : List RawFrame) :
    (dictKeys (priceData nowHour avg nowIso frames)).Nodup := by
  rw [dictKeys_priceData]
  decide

/-! ## Claims -/

/-- C1: For every stored snapshot S and every partial update U produced by
a push frame (`_process_ws_message`) or a price fetch (`get_prices`), the
merged result R satisfies keys(R) = keys(S) ∪ keys(U), and for every key
k, R[k] = U[k] if k is in U, else R[k] = S[k] — the shallow-merge
semantics of Python's `dict.update`. -/
theorem c1_shallow_merge (S : Snap) (f : PushFrame) (nowHour : Nat)
    (avg : Option ℚ) (iso : String) (frames : List RawFrame) :
    ((∀ k, k ∈ dictKeys (processWsMessage S f) ↔
        k ∈ dictKeys S ∨ k ∈ dictKeys (usageData f))
      ∧ ∀ k, dictGet (processWsMessage S f) k =
          if k ∈ dictKeys (usageData f) then dictGet (usageData f) k
          else dictGet S k)
    ∧ ((∀ k, k ∈ dictKeys (getPricesMerge S nowHour avg iso frames) ↔
        k ∈ dictKeys S ∨ k ∈ dictKeys (priceData nowHour avg iso frames))
      ∧ ∀ k, dictGet (getPricesMerge S nowHour avg iso frames) k =
          if k ∈ dictKeys (priceData nowHour avg iso frames) then
            dictGet (priceData nowHour avg iso frames) k
          else dictGet S k) := by
  exact ⟨⟨fun k => dictKeys_dictUpdate S (usageData f) k,
      fun k => dictGet_dictUpdate S (usageData f) k (dictKeys_usageData_nodup f)⟩,
    ⟨fun k => dictKeys_dictUpdate S (priceData nowHour avg iso frames) k,
      fun k => dictGet_dictUpdate S (priceData nowHour avg iso frames) k
        (dictKeys_priceData_nodup nowHour avg iso frames)⟩⟩

/-- C2, counterexample: a push frame that omits the `day_to_date` group
does NOT leave the previous `today_usage` value in place — the handler
builds `usage_data` with `data.get("day_to_date", {}).get("fae_usage")`,
i.e. null, and the merge overwrites the stored 5 with null. -/
theorem c2_counterexample :
    dictGet snapC2 "today_usage" = some (Val.num 5)
    ∧ frameC2.day_to_date = none
    ∧ dictGet (processWsMessage snapC2 frameC2) "today_usage" = some Val.null := by
  exact ⟨rfl, rfl, by decide⟩

/-- C2, amended: for every push frame, each snapshot key outside the six
usage/cost keys retains its previous value after the merge; but the six
usage/cost keys are always written, and a key whose group is absent from
the frame is set to null rather than retaining its previous value. -/
theorem c2_amended_merge (S : Snap) (f : PushFrame) :
    (∀ k, k ∉ dictKeys (usageData f) →
        dictGet (processWsMessage S f) k = dictGet S k)
    ∧ (f.day_to_date = none →
        dictGet (processWsMessage S f) "today_usage" = some Val.null
        ∧ dictGet (processWsMessage S f) "today_cost" = some Val.null)
    ∧ (f.week_to_date = none →
        dictGet (processWsMessage S f) "week_usage" = some Val.null
        ∧ dictGet (processWsMessage S f) "week_cost" = some Val.null)
    ∧ (f.month_to_date = none →
        dictGet (processWsMessage S f) "month_usage" = some Val.null
        ∧ dictGet (processWsMessage S f) "month_cost" = some Val.null) := by
  refine ⟨fun k hk => dictGet_dictUpdate_of_not_mem S (usageData f) k hk, ?_, ?_, ?_⟩ <;>
    intro h <;>
    constructor <;>
    · show dictGet (dictUpdate S (usageData f)) _ = some Val.null
      rw [dictGet_dictUpdate S (usageData f) _ (dictKeys_usageData_nodup f),
        if_pos (by rw [dictKeys_usageData]; decide)]
      simp [usageData, dictGet, h, groupUsage, groupCost]

/-- C2, witness for the amended claim at the concrete inputs of the
counterexample: `current_price` is untouched while the omitted group's
`today_usage` is nulled. -/
theorem c2_amended_witness :
    dictGet (processWsMessage snapC2 frameC2) "current_price"
      = dictGet snapC2 "current_price"
    ∧ dictGet (processWsMessage snapC2 frameC2) "today_usage" = some Val.null :=
  ⟨(c2_amended_merge snapC2 frameC2).1 "current_price" (by decide),
   ((c2_amended_merge snapC2 frameC2).2.1 rfl).1⟩

/-- C3: the code never aborts setup.  `authenticate` reports failure only
through its boolean result (its `except Exception` handler swallows every
error), and `async_setup_entry` discards that boolean, so on a non-200
login response setup still completes and returns True — contradicting the
claim that authentication failure raises a setup-aborting error. -/
theorem c3_setup_never_aborts :
    (authenticate stEmpty 0 (AuthHttp.non200 401)).2 = false
    ∧ setupEntryAuth stEmpty 0 (AuthHttp.non200 401) = Except.ok true
    ∧ ∀ (st : TokenState) (now : Nat) (o : AuthHttp),
        setupEntryAuth st now o = Except.ok true :=
  ⟨rfl, rfl, fun _ _ _ => rfl⟩

/-- C4: `refresh_token` posts `{"refresh": self._access_token}` — the
request body carries the access token, not the stored refresh token
(`api.py` line 224), contradicting the claim; the 200-response part of
the claim (access token replaced, expiry reset) does hold. -/
theorem c4_refresh_body_is_access_token :
    refreshRequestBody stC4 = some "a1"
    ∧ stC4.refresh = some "r1"
    ∧ refreshRequestBody stC4 ≠ stC4.refresh
    ∧ refreshTokenStep stC4 1000 (HttpOutcome.ok200 "a2")
        = (⟨some "a2", some "r1", some 1600⟩, true) := by
  exact ⟨rfl, rfl, by decide, rfl⟩

/-- C5 (modelled from the spec, the computation being absent from src/):
for every list of 48 hourly price frames, the current-period
cheapest-hour timestamp is the timestamp of a frame of the first 24 whose
gross price is minimal among the first 24, and every frame preceding it
(i.e. with an earlier timestamp, the frames being in ascending timestamp
order) has a strictly greater price — so ties resolve to the earliest
timestamp. -/
theorem c5_cheapest_hour (frames : List PriceFrame)
    (h48 : frames.length = 48) :
    ∃ b pre suf, frames.take 24 = pre ++ b :: suf
      ∧ cheapestCurrentHour frames = some b.ts
      ∧ (∀ x ∈ frames.take 24, b.price ≤ x.price)
      ∧ (∀ x ∈ pre, b.price < x.price) := by
  have hlen : (frames.take 24).length = 24 := by
    rw [List.length_take, h48]
    decide
  cases htake : frames.take 24 with
  | nil => rw [htake] at hlen; simp at hlen
  | cons f fs =>
    rcases argminFirst_spec fs f with ⟨pre, suf, heq, hmin, hstrict⟩
    refine ⟨argminFirst f fs, pre, suf, heq, ?_, hmin, hstrict⟩
    unfold cheapestCurrentHour
    rw [htake]

/-- C5, witness: 48 frames with a unique minimum at timestamp 5. -/
theorem c5_witness :
    frames48.length = 48
    ∧ ∃ b pre suf, frames48.take 24 = pre ++ b :: suf
        ∧ cheapestCurrentHour frames48 = some b.ts
        ∧ (∀ x ∈ frames48.take 24, b.price ≤ x.price)
        ∧ (∀ x ∈ pre, b.price < x.price) :=
  ⟨by simp [frames48], c5_cheapest_hour frames48 (by simp [frames48])⟩

/-- C6: the sleeps of the supervising loop after n consecutive connection
failures (starting from a reset `retry_count`) are
min(5·2^0, 300), min(5·2^1, 300), … — i.e. 5s, 10s, 20s, 40s, …, every
element capped at 300s — and after any successful connection the next
failure's delay is back to 5 seconds (the loop also sleeps 5/2 s right
after the success itself, `2 ** (0 - 1)` being 0.5 in Python). -/
theorem c6_backoff_sequence :
    (∀ n, wsLoopSleeps 0 (List.replicate n false) =
        (List.range n).map (fun k => min ((5 : ℚ) * 2 ^ k) 300))
    ∧ wsLoopSleeps 0 (List.replicate 8 false)
        = [5, 10, 20, 40, 80, 160, 300, 300]
    ∧ (∀ rc rest, wsLoopSleeps rc (true :: false :: rest) =
        (5 / 2 : ℚ) :: 5 :: wsLoopSleeps 1 rest) := by
  have hrep : ∀ n, wsLoopSleeps 0 (List.replicate n false) =
      (List.range n).map (fun k => min ((5 : ℚ) * 2 ^ k) 300) := by
    intro n
    rw [wsLoopSleeps_replicate 0 n]
    apply List.map_congr_left
    intro k _
    rw [Nat.zero_add]
  refine ⟨hrep, ?_, ?_⟩
  · rw [hrep 8]
    norm_num [List.range_succ]
  · intro rc rest
    show (wsLoopStep rc true).2 ::
        (wsLoopStep (wsLoopStep rc true).1 false).2 ::
        wsLoopSleeps (wsLoopStep (wsLoopStep rc true).1 false).1 rest = _
    have h1 : wsLoopStep rc true = (0, backoffSleep 0) := rfl
    rw [h1]
    show backoffSleep 0 :: backoffSleep 1 :: wsLoopSleeps 1 rest = _
    rw [backoffSleep_zero, backoffSleep_succ 0]
    norm_num

/-- C7: on every (re)connection the handler starts with
`_first_message_ignored = False`; the first binary frame is then discarded
without being decoded or delivered (whatever its payload), and the second
binary frame is processed normally and delivered to the callback. -/
theorem c7_first_frame_discarded (apiData : Snap) (p : Option PushFrame)
    (g : PushFrame) (rest : List WsEvent) :
    connRun apiData false (⟨false, WsMsg.binary p⟩ :: rest)
        = connRun apiData true rest
    ∧ connRun apiData true (⟨false, WsMsg.binary (some g)⟩ :: rest)
        = processWsMessage apiData g :: connRun apiData true rest
    ∧ connRun apiData false
          (⟨false, WsMsg.binary p⟩ :: ⟨false, WsMsg.binary (some g)⟩ :: rest)
        = processWsMessage apiData g :: connRun apiData true rest :=
  ⟨rfl, rfl, rfl⟩

/-- C8: the update a valid push frame sends to the merge consists of
exactly the six usage/cost keys, and every price-related key of the
delivered merged snapshot keeps the value it had before the frame was
processed. -/
theorem c8_push_leaves_price_keys (prev : Snap) (f : PushFrame) :
    dictKeys (usageData f) =
      ["today_usage", "today_cost", "week_usage", "week_cost",
       "month_usage", "month_cost"]
    ∧ dictGet (processWsMessage prev f) "current_price"
        = dictGet prev "current_price"
    ∧ dictGet (processWsMessage prev f) "next_hour_price"
        = dictGet prev "next_hour_price"
    ∧ dictGet (processWsMessage prev f) "today_price_avg"
        = dictGet prev "today_price_avg"
    ∧ dictGet (processWsMessage prev f) "hourly_prices"
        = dictGet prev "hourly_prices"
    ∧ dictGet (processWsMessage prev f) "prices_updated"
        = dictGet prev "prices_updated" := by
  refine ⟨rfl, ?_, ?_, ?_, ?_, ?_⟩ <;>
    exact dictGet_dictUpdate_of_not_mem _ _ _
      (by rw [dictKeys_usageData]; decide)

/-- C9: when `_ensure_token_valid` runs with a stale (absent or expired)
access token while a refresh token is held and the refresh call succeeds,
exactly the refresh operation is performed and `authenticate` is not
invoked. -/
theorem c9_refresh_not_authenticate (st : TokenState) (now : Nat)
    (hstale : tokenStale st now = true)
    (hheld : truthyStr st.refresh = true) :
    ensureTokenValidOps st now true = [TokenOp.refreshOp]
    ∧ TokenOp.authenticateOp ∉ ensureTokenValidOps st now true := by
  unfold ensureTokenValidOps
  rw [hstale, hheld]
  simp

/-- C9, witness: absent access token, held refresh token, refresh
succeeds. -/
theorem c9_witness :
    ensureTokenValidOps stC9 0 true = [TokenOp.refreshOp]
    ∧ TokenOp.authenticateOp ∉ ensureTokenValidOps stC9 0 true :=
  c9_refresh_not_authenticate stC9 0 (by decide) (by decide)

/-- C10: a frame whose gross price is 0 or whose start string is empty
fails the Python truthiness guard `if start_time and price:` and is
treated as missing: the whole frame-loop result (the `hourly_prices`
dict, `current_price` and `next_hour_price`) is the same as if the frame
were not in the response at all, even when its hour matches the current
or next hour. -/
theorem c10_zero_price_skipped (nowHour : Nat) (xs ys : List RawFrame)
    (f : RawFrame) (h : f.price = some 0 ∨ f.start = some "") :
    processFrames nowHour (xs ++ f :: ys) = processFrames nowHour (xs ++ ys) := by
  unfold processFrames
  rw [List.foldl_append, List.foldl_append, List.foldl_cons,
    frameStep_skip nowHour _ f h]

/-- C10, witness: a zero-priced frame whose hour matches the current hour
is dropped. -/
theorem c10_witness :
    processFrames 10 ([⟨some "t09", 9, some 2⟩] ++ ⟨some "t10", 10, some 0⟩ ::
        [⟨some "t11", 11, some 3⟩])
      = processFrames 10 ([⟨some "t09", 9, some 2⟩] ++ [⟨some "t11", 11, some 3⟩]) :=
  c10_zero_price_skipped 10 [⟨some "t09", 9, some 2⟩] [⟨some "t11", 11, some 3⟩]
    ⟨some "t10", 10, some 0⟩ (Or.inl rfl)

end Pstryk
